import Mathlib

/-
Verification of the EE474 Lab 4 ESP32/FreeRTOS sketches.

The repository contains two variants of the "Part II" synchronized sensor
pipeline (the draft `Lab4_PartII.ino`, called V1 below, and the reworked
"Update 2" sketch in `part_001`, called V2 below), together with the
"Part I" budget-tracking monitor (ledTask / counterTask / alphabetTask /
scheduleTasks, also in `part_001`).

The embedding is shallow: each task's per-round body is translated to a pure
Lean function on an explicit state record.  C `int` becomes `Int`, C `float`
arithmetic on the moving average becomes exact `ℚ` arithmetic (the averages
involved are sums of small integers divided by 5, all exactly representable,
so exact rational equality is the idealization of "equal within
floating-point tolerance"), and `TickType_t` (unsigned) becomes `Nat`.
-/

/-! ## Part II, V2 (part_001 "Update 2"): producer task `vTaskLight`

Globals `light : int`, `average : float`; locals `lightHistory[5]`, `index`.
Round body (under the semaphore):
  lightHistory[index] = raw; index = (index + 1) % 5;
  sum = Σ lightHistory[i]; light = raw; average = sum / 5.0;
-/

structure LightStateV2 where
  light : Int
  history : List Int
  index : Nat
  average : ℚ
deriving DecidableEq

/-- One producer round of the V2 `vTaskLight` body, fed the raw sample
`raw` read from the photoresistor before taking the semaphore. -/
def feedV2 (s : LightStateV2) (raw : Int) : LightStateV2 :=
  let h := s.history.set s.index raw
  let i := (s.index + 1) % 5
  let sum := h.sum
  { light := raw, history := h, index := i, average := (sum : ℚ) / 5 }

/-- Feeding a whole sequence of raw samples to the V2 producer, one round each. -/
def feedAllV2 (s : LightStateV2) (xs : List Int) : LightStateV2 :=
  xs.foldl feedV2 s

/-- The circular buffer read in write order: starting at the write cursor
(the oldest slot) and wrapping around. -/
def orderedView (h : List Int) (i : Nat) : List Int :=
  h.drop i ++ h.take i

/-- A representative initial V2 producer state (the sketch's globals start at
`light = 0`, `average = 0`; the local history is modeled zeroed, though the
theorems below hold for arbitrary initial buffer contents). -/
def initV2 : LightStateV2 :=
  { light := 0, history := [0, 0, 0, 0, 0], index := 0, average := 0 }

lemma length_five_cases (l : List Int) (h : l.length = 5) :
    ∃ a b c d e : Int, l = [a, b, c, d, e] := by
  match l, h with
  | [a, b, c, d, e], _ => exact ⟨a, b, c, d, e, rfl⟩

lemma orderedView_length (h : List Int) (i : Nat) (hi : i ≤ h.length) :
    (orderedView h i).length = h.length := by
  simp [orderedView]
  omega

lemma sum_orderedView (h : List Int) (i : Nat) :
    (orderedView h i).sum = h.sum := by
  rw [orderedView, List.sum_append, add_comm, ← List.sum_append,
    List.take_append_drop]

lemma feedV2_history_length (s : LightStateV2) (x : Int)
    (h5 : s.history.length = 5) : (feedV2 s x).history.length = 5 := by
  simp [feedV2, h5]

lemma feedV2_index_lt (s : LightStateV2) (x : Int) : (feedV2 s x).index < 5 := by
  simp only [feedV2]
  omega

lemma feedV2_step (s : LightStateV2) (x : Int)
    (h5 : s.history.length = 5) (hi : s.index < 5) :
    orderedView (feedV2 s x).history (feedV2 s x).index
        = (orderedView s.history s.index).drop 1 ++ [x] := by
  obtain ⟨lv, h, i, av⟩ := s
  simp only at h5 hi
  obtain ⟨a, b, c, d, e, rfl⟩ := length_five_cases h h5
  interval_cases i <;> simp [feedV2, orderedView]

lemma orderedView_feedAllV2 :
    ∀ (xs : List Int) (s : LightStateV2),
      s.history.length = 5 → s.index < 5 →
      orderedView (feedAllV2 s xs).history (feedAllV2 s xs).index
          = ((orderedView s.history s.index) ++ xs).drop xs.length ∧
        (feedAllV2 s xs).history.length = 5 ∧ (feedAllV2 s xs).index < 5 := by
  intro xs
  induction xs with
  | nil =>
    intro s h5 hi
    refine ⟨?_, h5, hi⟩
    simp [feedAllV2]
  | cons x xs ih =>
    intro s h5 hi
    have hstep := feedV2_step s x h5 hi
    have h5' := feedV2_history_length s x h5
    have hi' := feedV2_index_lt s x
    have hrec := ih (feedV2 s x) h5' hi'
    have hfold : feedAllV2 s (x :: xs) = feedAllV2 (feedV2 s x) xs := rfl
    rw [hfold]
    refine ⟨?_, hrec.2⟩
    rw [hrec.1, hstep]
    have hovlen : (orderedView s.history s.index).length = 5 := by
      rw [orderedView_length s.history s.index (by omega)]; exact h5
    obtain ⟨a, b, c, d, e, hov⟩ :=
      length_five_cases (orderedView s.history s.index) hovlen
    rw [hov]
    simp

lemma avg_feedAllV2 :
    ∀ (xs : List Int) (s : LightStateV2), xs ≠ [] →
      (feedAllV2 s xs).average = ((feedAllV2 s xs).history.sum : ℚ) / 5 := by
  intro xs
  induction xs with
  | nil => intro s h; exact absurd rfl h
  | cons x xs ih =>
    intro s _
    cases xs with
    | nil => rfl
    | cons y ys =>
      have hfold : feedAllV2 s (x :: y :: ys) = feedAllV2 (feedV2 s x) (y :: ys) := rfl
      rw [hfold]
      exact ih (feedV2 s x) (by simp)

/-- Claim C1: for every sequence of `k ≥ 5` producer writes, after the k-th
write the circular history buffer (read in write order, starting at the write
cursor) holds exactly the last 5 raw samples in write order, and the moving
average stored by the V2 producer equals their arithmetic mean (sum of the 5
slots divided by 5). -/
theorem c1_history_last_five_and_average_mean
    (s : LightStateV2) (xs : List Int)
    (h5 : s.history.length = 5) (hi : s.index < 5) (hk : 5 ≤ xs.length) :
    orderedView (feedAllV2 s xs).history (feedAllV2 s xs).index
        = xs.drop (xs.length - 5) ∧
      (feedAllV2 s xs).average = ((xs.drop (xs.length - 5)).sum : ℚ) / 5 := by
  obtain ⟨hov, h5', hi'⟩ := orderedView_feedAllV2 xs s h5 hi
  have hovlen : (orderedView s.history s.index).length = 5 := by
    rw [orderedView_length s.history s.index (by omega)]; exact h5
  have hsplit : xs.length = (orderedView s.history s.index).length + (xs.length - 5) := by
    omega
  have hdrop : ((orderedView s.history s.index) ++ xs).drop xs.length
      = xs.drop (xs.length - 5) := by
    conv_lhs => rw [hsplit]
    exact List.drop_append (xs.length - 5)
  have hmain : orderedView (feedAllV2 s xs).history (feedAllV2 s xs).index
      = xs.drop (xs.length - 5) := by rw [hov, hdrop]
  refine ⟨hmain, ?_⟩
  have hne : xs ≠ [] := by
    intro hnil
    subst hnil
    simp at hk
  rw [avg_feedAllV2 xs s hne]
  have hsum : (feedAllV2 s xs).history.sum = (xs.drop (xs.length - 5)).sum := by
    rw [← sum_orderedView (feedAllV2 s xs).history (feedAllV2 s xs).index, hmain]
  rw [hsum]

/-- Witness for C1 at a concrete run: feeding `[1, 2, 3, 4, 6]` to the
zero-initialized producer leaves the buffer holding exactly those samples in
write order, with stored average `16/5`. -/
theorem c1_witness :
    orderedView (feedAllV2 initV2 [1, 2, 3, 4, 6]).history
        (feedAllV2 initV2 [1, 2, 3, 4, 6]).index = [1, 2, 3, 4, 6] ∧
      (feedAllV2 initV2 [1, 2, 3, 4, 6]).average = 16 / 5 := by
  have h := c1_history_last_five_and_average_mean initV2 [1, 2, 3, 4, 6]
    (by decide) (by decide) (by decide)
  simpa using h

/-! ## Part II, V1 (Lab4_PartII.ino): producer `vTaskLight` and display `vTaskLCD`

Globals: `lightLevel : int`, `lightHistory[5] = {0}`, `sma : float = 0`,
`index : int = 0`, `dataChanged : bool = false`.
Producer round body (under the semaphore):
  lightLevel = raw; lightHistory[index] = raw; index = (index + 1) % 5;
  sum = Σ lightHistory[i]; newSMA = sum / 5.0;
  if (abs(newSMA - sma) > 5) { sma = newSMA; dataChanged = true; }
Display round body (under the semaphore):
  if (dataChanged) { render lightLevel and (int)sma; dataChanged = false; }
-/

structure LightStateV1 where
  lightLevel : Int
  history : List Int
  index : Nat
  sma : ℚ
  dataChanged : Bool
deriving DecidableEq

/-- The candidate new moving average the V1 producer computes on a round:
the mean of the history buffer after writing `raw` at the cursor. -/
def newSMAof (s : LightStateV1) (raw : Int) : ℚ :=
  (((s.history.set s.index raw).sum : ℚ)) / 5

/-- One producer round of the V1 `vTaskLight` body. -/
def feedV1 (s : LightStateV1) (raw : Int) : LightStateV1 :=
  let h := s.history.set s.index raw
  let i := (s.index + 1) % 5
  let newSMA : ℚ := ((h.sum : ℚ)) / 5
  if |newSMA - s.sma| > 5 then
    { lightLevel := raw, history := h, index := i, sma := newSMA, dataChanged := true }
  else
    { lightLevel := raw, history := h, index := i, sma := s.sma, dataChanged := s.dataChanged }

/-- One round of the V1 `vTaskLCD` body: the `Bool` is whether the round
issued a render (the `lcd.print` calls) to the display sink. -/
def displayV1 (s : LightStateV1) : Bool × LightStateV1 :=
  if s.dataChanged then (true, { s with dataChanged := false })
  else (false, s)

/-- The V1 globals at startup: zeroed history, `sma = 0`, flag clear. -/
def initV1 : LightStateV1 :=
  { lightLevel := 0, history := [0, 0, 0, 0, 0], index := 0, sma := 0, dataChanged := false }

lemma feedV1_of_gt (s : LightStateV1) (x : Int)
    (hc : |newSMAof s x - s.sma| > 5) :
    feedV1 s x =
      { lightLevel := x
        history := s.history.set s.index x
        index := (s.index + 1) % 5
        sma := newSMAof s x
        dataChanged := true } := by
  simp only [newSMAof] at hc
  rw [feedV1, if_pos hc]
  rfl

lemma feedV1_of_le (s : LightStateV1) (x : Int)
    (hc : ¬ |newSMAof s x - s.sma| > 5) :
    feedV1 s x =
      { lightLevel := x
        history := s.history.set s.index x
        index := (s.index + 1) % 5
        sma := s.sma
        dataChanged := s.dataChanged } := by
  simp only [newSMAof] at hc
  rw [feedV1, if_neg hc]

lemma newSMAof_initV1_ten : newSMAof initV1 10 = 2 := by
  norm_num [newSMAof, initV1]

/-- Counterexample to claim C2 as stated: after the V1 producer round that
feeds raw sample `10` to the freshly initialized state, the stored `sma` is
still `0` (the change `|2 - 0| = 2` does not exceed the threshold 5), while
the arithmetic mean of the history contents is `2`. -/
theorem c2_counterexample :
    (feedV1 initV1 10).sma ≠ (((feedV1 initV1 10).history.sum : ℚ)) / 5 := by
  have h := feedV1_of_le initV1 10 (by rw [newSMAof_initV1_ten]; norm_num [initV1])
  rw [h]
  norm_num [initV1]

/-- Claim C2 (amended): after every producer round the V2 (`part_001`)
producer's stored `average` equals the arithmetic mean of the current history
contents exactly; the V1 (`Lab4_PartII.ino`) producer's stored `sma` is only
guaranteed to lie within the hysteresis threshold 5 of that mean, and it
equals the mean exactly on rounds whose change exceeded the threshold. -/
theorem c2_average_consistency_amended :
    ∀ (s : LightStateV2) (t : LightStateV1) (x y : Int),
      (feedV2 s x).average = (((feedV2 s x).history.sum : ℚ)) / 5 ∧
      |(feedV1 t y).sma - (((feedV1 t y).history.sum : ℚ)) / 5| ≤ 5 ∧
      (|newSMAof t y - t.sma| > 5 →
        (feedV1 t y).sma = (((feedV1 t y).history.sum : ℚ)) / 5) := by
  intro s t x y
  refine ⟨rfl, ?_, ?_⟩
  · by_cases hc : |newSMAof t y - t.sma| > 5
    · rw [feedV1_of_gt t y hc]
      simp [newSMAof]
    · rw [feedV1_of_le t y hc]
      have h2 : |t.sma - newSMAof t y| ≤ 5 := by
        rw [abs_sub_comm]
        exact le_of_not_lt hc
      simpa [newSMAof] using h2
  · intro hc
    rw [feedV1_of_gt t y hc]
    simp [newSMAof]

/-- Claim C3: the V1 producer assigns `dataChanged := true` exactly when
`|newSMA - sma| > 5` (so from a clear flag, the post-round flag is true iff
the threshold was exceeded, and when the threshold is not exceeded both the
flag and `sma` are left untouched); the V1 display task renders exactly when
the flag is set and clears the flag in the same round in which it renders. -/
theorem c3_dirty_flag_threshold_and_clear :
    (∀ (s : LightStateV1) (x : Int), s.dataChanged = false →
      ((feedV1 s x).dataChanged = true ↔ |newSMAof s x - s.sma| > 5)) ∧
    (∀ (s : LightStateV1) (x : Int), ¬ |newSMAof s x - s.sma| > 5 →
      (feedV1 s x).dataChanged = s.dataChanged ∧ (feedV1 s x).sma = s.sma) ∧
    (∀ (s : LightStateV1) (x : Int), |newSMAof s x - s.sma| > 5 →
      (feedV1 s x).dataChanged = true) ∧
    (∀ s : LightStateV1,
      (displayV1 s).1 = s.dataChanged ∧
      ((displayV1 s).2).dataChanged = false ∧
      ((displayV1 s).1 = false → (displayV1 s).2 = s)) := by
  refine ⟨?_, ?_, ?_, ?_⟩
  · intro s x hclear
    by_cases hc : |newSMAof s x - s.sma| > 5
    · rw [feedV1_of_gt s x hc]
      simpa using hc
    · rw [feedV1_of_le s x hc]
      simpa [hclear] using hc
  · intro s x hc
    rw [feedV1_of_le s x hc]
    exact ⟨rfl, rfl⟩
  · intro s x hc
    rw [feedV1_of_gt s x hc]
  · intro s
    by_cases hd : s.dataChanged
    · rw [displayV1, if_pos hd]
      exact ⟨hd.symm, rfl, by intro h; simp at h⟩
    · rw [displayV1, if_neg hd]
      simp only [Bool.not_eq_true] at hd
      exact ⟨hd.symm, hd, fun _ => rfl⟩

/-- Witness for C3 at a concrete input: from the startup state (flag clear)
a raw sample of `100` moves the mean from 0 to 20, exceeding the threshold,
and the flag becomes set. -/
theorem c3_witness :
    (feedV1 initV1 100).dataChanged = true ↔ |newSMAof initV1 100 - initV1.sma| > 5 := by
  exact c3_dirty_flag_threshold_and_clear.1 initV1 100 rfl

/-! ## Part II alarm task `vTaskAnomaly` (both variants), as event traces

One alarm round is modeled as the list of externally visible actions it
performs, in program order: semaphore take/give, LED writes, and delays.

V1 (Lab4_PartII.ino):
  take; if (sma > 3800 || sma < 300) { 3 × (HIGH; delay 250; LOW; delay 250);
  delay 2000; } give;                       -- blinking happens UNDER the lock
V2 (part_001 "Update 2"):
  take; if (average > 3800 || average < 300) anomaly = true; give;
  if (anomaly) { 3 × (HIGH; delay 250; LOW; delay 2000); anomaly = false; }
  delay 50;                                 -- blinking happens OUTSIDE the lock
-/

inductive AEv where
  | takeSem : AEv
  | giveSem : AEv
  | led : Bool → AEv
  | delayMs : Nat → AEv
deriving DecidableEq

/-- The anomaly condition, mirroring `average > 3800 || average < 300`. -/
def anomalyCond (a : ℚ) : Bool :=
  decide (a > 3800) || decide (a < 300)

/-- V1 blink body: `for i in 0..2 { HIGH; delay 250; LOW; delay 250 }` then
`delay 2000`, all still inside the critical section. -/
def blinkV1 : List AEv :=
  (List.replicate 3 [AEv.led true, AEv.delayMs 250, AEv.led false, AEv.delayMs 250]).flatten
    ++ [AEv.delayMs 2000]

/-- V2 blink body: `for i in 0..2 { HIGH; delay 250; LOW; delay 2000 }`. -/
def blinkV2 : List AEv :=
  (List.replicate 3 [AEv.led true, AEv.delayMs 250, AEv.led false, AEv.delayMs 2000]).flatten

/-- One V1 `vTaskAnomaly` round, given the `sma` read under the lock. -/
def anomalyRoundV1 (a : ℚ) : List AEv :=
  [AEv.takeSem] ++ (if anomalyCond a then blinkV1 else []) ++ [AEv.giveSem]

/-- One V2 `vTaskAnomaly` round, given the `average` read under the lock and
the task-local `anomaly` flag at round entry; returns the event trace and the
flag at round exit. -/
def anomalyRoundV2 (a : ℚ) (anom : Bool) : List AEv × Bool :=
  let anom1 := if anomalyCond a then true else anom
  ([AEv.takeSem, AEv.giveSem]
      ++ (if anom1 then blinkV2 else [])
      ++ [AEv.delayMs 50],
    if anom1 then false else anom1)

/-- The V2 round trace from the flag's steady state (the local `anomaly` flag
is false at every round entry: it starts false and is reset to false at the
end of every round that blinked — see `anomalyRoundV2_flag_false`). -/
def anomalyTraceV2 (a : ℚ) : List AEv :=
  (anomalyRoundV2 a false).1

/-- The `anomaly` flag is false again at every V2 round exit, so `false` at
round entry is an invariant. -/
lemma anomalyRoundV2_flag_false (a : ℚ) (anom : Bool) :
    (anomalyRoundV2 a anom).2 = false ∨ (anomalyRoundV2 a anom).2 = anom := by
  rw [anomalyRoundV2]
  by_cases h : anomalyCond a
  · simp [h]
  · simp only [h, Bool.false_eq_true, if_false]
    cases anom <;> simp

/-- Scans a trace tracking whether the semaphore is held, and reports whether
any delay is executed while holding it. -/
def delayWhileHeld : List AEv → Bool → Bool
  | [], _ => false
  | AEv.takeSem :: r, _ => delayWhileHeld r true
  | AEv.giveSem :: r, _ => delayWhileHeld r false
  | AEv.delayMs _ :: r, held => held || delayWhileHeld r held
  | AEv.led _ :: r, held => delayWhileHeld r held

/-- Counterexample to claim C4 as stated: on the `Lab4_PartII.ino` alarm
round with `sma = 4000`, blink delays are executed between the semaphore take
and the give, i.e. while the shared lock is held. -/
theorem c4_counterexample :
    delayWhileHeld (anomalyRoundV1 4000) false = true := by
  have h : anomalyCond 4000 = true := by
    rw [anomalyCond]
    norm_num
  rw [anomalyRoundV1, h]
  rfl

/-- Claim C4 (amended): in the `part_001` "Update 2" alarm task no delay is
ever executed while the lock is held — the lock is released immediately after
the average is read, before any blink delay begins — whereas in the
`Lab4_PartII.ino` variant the whole blink/delay sequence runs while the lock
is held (exactly on the rounds on which the anomaly condition fires). -/
theorem c4_no_delay_under_lock_amended :
    ∀ a : ℚ,
      delayWhileHeld (anomalyTraceV2 a) false = false ∧
      delayWhileHeld (anomalyRoundV1 a) false = anomalyCond a := by
  intro a
  constructor
  · rw [anomalyTraceV2, anomalyRoundV2]
    by_cases h : anomalyCond a
    · simp only [h, if_true]
      rfl
    · simp only [h, Bool.false_eq_true, if_false]
      rfl
  · rw [anomalyRoundV1]
    by_cases h : anomalyCond a
    · simp only [h, if_true]
      rfl
    · simp only [h, Bool.false_eq_true, if_false]
      rfl

/-- Number of LED on-writes (`digitalWrite(LED_PIN, HIGH)`) in a trace. -/
def ledOnCount (tr : List AEv) : Nat :=
  tr.countP (fun e => e = AEv.led true)

/-- Number of LED off-writes (`digitalWrite(LED_PIN, LOW)`) in a trace. -/
def ledOffCount (tr : List AEv) : Nat :=
  tr.countP (fun e => e = AEv.led false)

/-- Claim C5: on every alarm round (both variants) the blink sequence fires
exactly when the average read under the lock is `> 3800` or `< 300`, and a
firing round performs exactly 3 on-toggles and 3 off-toggles (a non-firing
round performs none); in particular an average of 4000 yields exactly 3
on/off toggles. -/
theorem c5_blink_threshold_and_count :
    ∀ a : ℚ,
      (anomalyCond a = true ↔ (a > 3800 ∨ a < 300)) ∧
      ledOnCount (anomalyTraceV2 a) = (if anomalyCond a then 3 else 0) ∧
      ledOffCount (anomalyTraceV2 a) = (if anomalyCond a then 3 else 0) ∧
      ledOnCount (anomalyRoundV1 a) = (if anomalyCond a then 3 else 0) ∧
      ledOffCount (anomalyRoundV1 a) = (if anomalyCond a then 3 else 0) ∧
      ledOnCount (anomalyTraceV2 4000) = 3 ∧
      ledOnCount (anomalyRoundV1 4000) = 3 := by
  have h4000 : anomalyCond 4000 = true := by
    rw [anomalyCond]
    norm_num
  intro a
  refine ⟨?_, ?_, ?_, ?_, ?_, ?_, ?_⟩
  · rw [anomalyCond]
    simp
  all_goals
    first
    | (rw [anomalyTraceV2, anomalyRoundV2]
       by_cases h : anomalyCond a <;>
         simp only [h, if_true, Bool.false_eq_true, if_false] <;> rfl)
    | (rw [anomalyRoundV1]
       by_cases h : anomalyCond a <;>
         simp only [h, if_true, Bool.false_eq_true, if_false] <;> rfl)
    | (rw [anomalyTraceV2, anomalyRoundV2, h4000]
       rfl)
    | (rw [anomalyRoundV1, h4000]
       rfl)

/-! ## Part I (part_001): budget-tracking tasks and the monitor

Each periodic task owns a countdown budget (`remainingLedTime`,
`remainingCounterTime`, `remainingAlphabetTime : TickType_t`) and, once per
round, runs:
  if (remaining > 0)
    remaining = (remaining > timeSlice) ? (remaining - timeSlice) : 0;
  if (remaining == 0) remaining = period;
Tick durations are `x / portTICK_PERIOD_MS`; on the ESP32 Arduino core the
tick rate is 1000 Hz, so `portTICK_PERIOD_MS = 1` and the constants below
are in ticks.  `TickType_t` is unsigned, modeled as `Nat`; the guarded
subtraction never underflows.
-/

def portTickPeriodMs : Nat := 1

def ledTaskExecutionTime : Nat := 500 / portTickPeriodMs

def counterTaskExecutionTime : Nat := 2000 / portTickPeriodMs

def alphabetTaskExecutionTime : Nat := 13000 / portTickPeriodMs

def timeSlice : Nat := 1000 / portTickPeriodMs

/-- The first `if` of a budget round: the clamped decrement. -/
def decStep (slice r : Nat) : Nat :=
  if r > 0 then (if r > slice then r - slice else 0) else r

/-- One full budget round of an owning task (both `if`s in program order). -/
def budgetRound (period slice r : Nat) : Nat :=
  let r1 := decStep slice r
  if r1 = 0 then period else r1

/-- The counter task's budget value at successive round boundaries, starting
from its initialization `remainingCounterTime = counterTaskExecutionTime`. -/
def counterBudgetTrace : Nat → Nat
  | 0 => counterTaskExecutionTime
  | n + 1 => budgetRound counterTaskExecutionTime timeSlice (counterBudgetTrace n)

/-- Counterexample to claim C6 as stated: for the counter task's budget
(period 2000, slice 1000) the decrement phase of round 2 reaches exactly 0,
but the same round's reset `if` immediately restores the period, so the value
observed at the round boundary is 2000, not 0 — the budget does not stay at 0
until "the task's own next round". -/
theorem c6_counterexample :
    counterBudgetTrace 1 = 1000 ∧
      decStep timeSlice (counterBudgetTrace 1) = 0 ∧
      counterBudgetTrace 2 = 2000 ∧
      counterBudgetTrace 2 ≠ 0 := by
  refine ⟨rfl, rfl, rfl, ?_⟩
  decide

/-- Claim C6 (amended): every budget stays within `[0, period]` at all round
boundaries (never negative, the decrement is clamped at zero, and in fact the
boundary value is always strictly positive), and on any round whose clamped
decrement reaches exactly 0 the owning task resets the budget to `period`
within that same round. -/
theorem c6_budget_sawtooth_amended :
    ∀ period slice r : Nat, 0 < period → r ≤ period →
      0 ≤ budgetRound period slice r ∧
      budgetRound period slice r ≤ period ∧
      0 < budgetRound period slice r ∧
      (decStep slice r = 0 → budgetRound period slice r = period) := by
  intro period slice r hp hr
  rw [budgetRound, decStep]
  split_ifs <;> simp_all <;> omega

/-- Witness for C6 (amended) at the counter budget's concrete parameters:
period 2000, slice 1000, entering a round at `remaining = 1000`. -/
theorem c6_witness :
    0 < (2000 : Nat) ∧ (1000 : Nat) ≤ 2000 ∧
      budgetRound 2000 1000 1000 ≤ 2000 ∧
      0 < budgetRound 2000 1000 1000 ∧
      (decStep 1000 1000 = 0 → budgetRound 2000 1000 1000 = 2000) := by
  have h := c6_budget_sawtooth_amended 2000 1000 1000 (by decide) (by decide)
  exact ⟨by decide, by decide, h.2.1, h.2.2.1, h.2.2.2⟩

/-- The global state of the Part I sketch that the monitor round can see:
the three task budgets plus the other task-owned globals. -/
structure SchedState where
  remainingLedTime : Nat
  remainingCounterTime : Nat
  remainingAlphabetTime : Nat
  currentCount : Int
  currentChar : Nat
deriving DecidableEq

/-- One round of the monitor task `scheduleTasks`: reads the three budgets,
folds them through the two comparisons into `minRemaining`, and returns that
local value together with the (untouched) program state. -/
def scheduleRound (s : SchedState) : Nat × SchedState :=
  let m0 := s.remainingLedTime
  let m1 := if s.remainingCounterTime < m0 then s.remainingCounterTime else m0
  let m2 := if s.remainingAlphabetTime < m1 then s.remainingAlphabetTime else m1
  (m2, s)

/-- Claim C8: a monitor round computes exactly the minimum of the three
remaining budgets and leaves every piece of program state unchanged — the
computed minimum is discarded (returned, never written anywhere). -/
theorem c8_monitor_reads_only :
    ∀ s : SchedState,
      (scheduleRound s).2 = s ∧
      (scheduleRound s).1 =
        min s.remainingLedTime (min s.remainingCounterTime s.remainingAlphabetTime) := by
  intro s
  refine ⟨rfl, ?_⟩
  rw [scheduleRound]
  simp only
  split_ifs <;> omega

/-- The counter task's displayed/global `currentCount`, initialized to 1. -/
def currentCountInit : Int := 1

/-- One round of `counterTask` as it affects `currentCount`: the first
component is the value rendered to the LCD this round (`Count: %d` is printed
before the increment), the second is the post-round value
(`currentCount++; if (currentCount > 20) currentCount = 1;`). -/
def counterRound (c : Int) : Int × Int :=
  (c, let c1 := c + 1; if c1 > 20 then 1 else c1)

/-- Claim C10: `currentCount` stays in `[1, 20]`: it starts at 1, each
counter round displays the current value and increments it by one, wrapping
from 20 back to 1, so `1 ≤ currentCount ≤ 20` is preserved by every round
(and the displayed value is the in-range pre-round value). -/
theorem c10_counter_range :
    (1 ≤ currentCountInit ∧ currentCountInit ≤ 20) ∧
    ∀ c : Int, 1 ≤ c → c ≤ 20 →
      (counterRound c).1 = c ∧
      1 ≤ (counterRound c).2 ∧ (counterRound c).2 ≤ 20 ∧
      (c = 20 → (counterRound c).2 = 1) ∧
      (c < 20 → (counterRound c).2 = c + 1) := by
  refine ⟨by decide, ?_⟩
  intro c h1 h20
  have hr : (counterRound c).2 = if c + 1 > 20 then 1 else c + 1 := rfl
  refine ⟨rfl, ?_, ?_, ?_, ?_⟩ <;> rw [hr] <;> split_ifs <;> omega

/-- Witness for C10 at the wrap point: a round entered at `currentCount = 20`
displays 20 and wraps the counter back to 1. -/
theorem c10_witness :
    (counterRound 20).1 = 20 ∧ 1 ≤ (counterRound 20).2 ∧ (counterRound 20).2 ≤ 20 := by
  have h := c10_counter_range.2 20 (by decide) (by decide)
  exact ⟨h.1, h.2.1, h.2.2.1⟩

/-! ## Part II startup (`setup()` in both variants)

A FreeRTOS binary semaphore is modeled as `Option Bool`: `none` when
creation failed (NULL handle), `some avail` otherwise, where `avail` says
whether the token is currently available.  `xSemaphoreCreateBinary` creates
the semaphore *empty* (the token must be given before a take can succeed);
`xSemaphoreGive` makes it available.
-/

/-- `xSemaphoreCreateBinary()`: `ok` abstracts whether the allocation
succeeds; a fresh binary semaphore starts unavailable. -/
def semCreateBinary (ok : Bool) : Option Bool :=
  if ok then some false else none

/-- `xSemaphoreGive` on a (possibly NULL) handle. -/
def semGive : Option Bool → Option Bool
  | some _ => some true
  | none => none

/-- What startup leaves behind for the pipeline tasks. -/
structure SetupOutcome where
  lockAvailable : Bool
  tasksCreated : Nat
deriving DecidableEq

/-- `setup()` of V2 (part_001 "Update 2"):
`xLightSemaphore = xSemaphoreCreateBinary(); xSemaphoreGive(xLightSemaphore);
if (xLightSemaphore != NULL) { create the 4 pipeline tasks }`.
`lockAvailable` records whether a first `xSemaphoreTake` can succeed. -/
def setupV2 (ok : Bool) : SetupOutcome :=
  let sem := semGive (semCreateBinary ok)
  { lockAvailable := sem = some true
    tasksCreated := if sem.isSome then 4 else 0 }

/-- `setup()` of V1 (Lab4_PartII.ino): identical except that the freshly
created binary semaphore is never given. -/
def setupV1 (ok : Bool) : SetupOutcome :=
  let sem := semCreateBinary ok
  { lockAvailable := sem = some true
    tasksCreated := if sem.isSome then 4 else 0 }

/-- Claim C7 (the V2 startup satisfies it; the V1 startup exhibits the bug):
after a successful V2 `setup()` the lock is available, so the first
acquisition by a pipeline task can succeed, and on creation failure neither
variant creates any pipeline task; but after a successful V1 `setup()` the
binary semaphore — created empty and never given — is *not* available, so
every first `xSemaphoreTake(..., portMAX_DELAY)` blocks forever. -/
theorem c7_lock_initially_available :
    (setupV2 true).lockAvailable = true ∧
    (setupV2 true).tasksCreated = 4 ∧
    (setupV2 false).tasksCreated = 0 ∧
    (setupV1 true).lockAvailable = false ∧
    (setupV1 true).tasksCreated = 4 ∧
    (setupV1 false).tasksCreated = 0 := by
  decide

/-! ## Part II one-shot prime workload `vTaskPrime`

V2 (part_001 "Update 2"):
  bool isPrime(int num) {
    for (int i = 2; i * i <= num; i++) if (num % i == 0) return false;
    return true; }
  void vTaskPrime(...) {
    for (int i = 2; i <= 5000; i++) if (isPrime(i)) print("Prime:", i);
    vTaskDelete(NULL); }

V1 (Lab4_PartII.ino) instead runs, for each i in 2..5000 (reading its
undeclared `num` as `i`):
  for (int j = 0; j * j <= i; j++) if (i % j == 0) print("Prime:", i);
which prints `i` once per small divisor (every i is printed at j = 1) and
evaluates `i % 0` at j = 0 (undefined behavior in C; Lean's `% 0` returns
the dividend, which is nonzero here, so the model skips j = 0).
-/

/-- The trial-division loop of V2 `isPrime`, from divisor candidate `i`. -/
def isPrimeFrom (n i : Nat) : Bool :=
  if h : i * i ≤ n then
    if n % i = 0 then false else isPrimeFrom n (i + 1)
  else true
termination_by n + 2 - i
decreasing_by
  have hle : i ≤ n + 1 := by
    rcases Nat.eq_zero_or_pos i with h0 | h1
    · omega
    · have := Nat.le_mul_of_pos_left i h1
      omega
  omega

/-- V2 `isPrime`: trial division by 2, 3, ... up to the integer square root. -/
def isPrimeC (n : Nat) : Bool :=
  isPrimeFrom n 2

/-- Events emitted by the prime task: a serial `Prime: i` line, or the final
`vTaskDelete(NULL)` removing the task from the scheduler. -/
inductive PEv where
  | print : Nat → PEv
  | deleted : PEv
deriving DecidableEq

/-- The V2 `vTaskPrime` outer loop from counter `i`: emissions in program
order, ending with the task's self-deletion. -/
def primeLoop (i : Nat) : List PEv :=
  if h : i ≤ 5000 then
    (if isPrimeC i then [PEv.print i] else []) ++ primeLoop (i + 1)
  else [PEv.deleted]
termination_by 5001 - i

/-- The complete output of the V2 one-shot prime task. -/
def vTaskPrimeOut : List PEv :=
  primeLoop 2

/-- The numbers the V2 task prints, in emission order. -/
def emittedPrimes : List Nat :=
  (List.range' 2 4999).filter (fun n => isPrimeC n)

/-- The V1 inner loop for the number `i`, from divisor candidate `j`
(one `Prime: i` line is printed per divisor candidate `j` with
`j * j ≤ i` and `i % j == 0`). -/
def innerV1 (i j : Nat) : List PEv :=
  if h : j * j ≤ i then
    (if i % j = 0 then [PEv.print i] else []) ++ innerV1 i (j + 1)
  else []
termination_by i + 2 - j
decreasing_by
  have hle : j ≤ i + 1 := by
    rcases Nat.eq_zero_or_pos j with h0 | h1
    · omega
    · have := Nat.le_mul_of_pos_left j h1
      omega
  omega

lemma isPrimeFrom_true_iff :
    ∀ (k n i : Nat), n + 2 - i ≤ k → 2 ≤ i →
      (isPrimeFrom n i = true ↔ ∀ m, i ≤ m → m * m ≤ n → ¬ m ∣ n) := by
  intro k
  induction k with
  | zero =>
    intro n i hk h2
    have hgt : ¬ i * i ≤ n := by
      have : i ≤ i * i := Nat.le_mul_of_pos_left i (by omega)
      omega
    rw [isPrimeFrom, dif_neg hgt]
    simp only [true_iff]
    intro m him hmm
    exfalso
    have h1 : i * i ≤ m * m := Nat.mul_le_mul him him
    omega
  | succ k ih =>
    intro n i hk h2
    rw [isPrimeFrom]
    by_cases hsq : i * i ≤ n
    · rw [dif_pos hsq]
      by_cases hmod : n % i = 0
      · rw [if_pos hmod]
        constructor
        · intro hfalse
          exact absurd hfalse (by simp)
        · intro hall
          exact absurd (Nat.dvd_of_mod_eq_zero hmod) (hall i le_rfl hsq)
      · rw [if_neg hmod]
        rw [ih n (i + 1) (by omega) (by omega)]
        constructor
        · intro hall m him hmm
          rcases eq_or_lt_of_le him with heq | hlt
          · subst heq
            intro hdvd
            exact hmod (Nat.dvd_iff_mod_eq_zero.mp hdvd)
          · exact hall m (by omega) hmm
        · intro hall m him hmm
          exact hall m (by omega) hmm
    · rw [dif_neg hsq]
      simp only [true_iff]
      intro m him hmm
      exfalso
      have h1 : i * i ≤ m * m := Nat.mul_le_mul him him
      omega

lemma isPrimeC_iff (n : Nat) (h : 2 ≤ n) : isPrimeC n = true ↔ Nat.Prime n := by
  rw [isPrimeC, isPrimeFrom_true_iff (n + 2) n 2 (by omega) le_rfl]
  rw [Nat.prime_def_le_sqrt]
  constructor
  · intro hall
    refine ⟨h, fun m h2m hm => hall m h2m (Nat.le_sqrt.mp hm)⟩
  · intro hp m h2m hmm hdvd
    exact hp.2 m h2m (Nat.le_sqrt.mpr hmm) hdvd

lemma primeLoop_eq :
    ∀ (k i : Nat), i + k = 5001 →
      primeLoop i
        = ((List.range' i k).filter (fun n => isPrimeC n)).map PEv.print
            ++ [PEv.deleted] := by
  intro k
  induction k with
  | zero =>
    intro i hi
    rw [primeLoop, dif_neg (by omega)]
    simp
  | succ k ih =>
    intro i hi
    rw [primeLoop, dif_pos (by omega), List.range'_succ, ih (i + 1) (by omega)]
    by_cases hp : isPrimeC i <;> simp [hp, List.filter_cons]

/-- Claim C9 (the V2 task satisfies it; the V1 loop exhibits the bug): the
V2 one-shot prime task's complete output is the list of numbers in 2..5000
passing trial division — exactly the primes of that range, each emitted once,
in ascending order — followed by a single self-deletion event and nothing
after it; the V1 inner loop instead prints its number once per small divisor,
e.g. it prints `4` (not a prime) twice. -/
theorem c9_prime_task_output :
    vTaskPrimeOut = emittedPrimes.map PEv.print ++ [PEv.deleted] ∧
    (∀ n : Nat, n ∈ emittedPrimes ↔ (2 ≤ n ∧ n ≤ 5000 ∧ Nat.Prime n)) ∧
    List.Pairwise (· < ·) emittedPrimes ∧
    emittedPrimes.Nodup ∧
    innerV1 4 0 = [PEv.print 4, PEv.print 4] ∧
    ¬ Nat.Prime 4 := by
  have hpw : List.Pairwise (· < ·) emittedPrimes :=
    (List.pairwise_lt_range' 2 4999).sublist (List.filter_sublist _)
  refine ⟨primeLoop_eq 4999 2 (by omega), ?_, hpw, ?_, ?_, by norm_num⟩
  · intro n
    rw [emittedPrimes, List.mem_filter, List.mem_range'_1]
    constructor
    · rintro ⟨⟨h2, h5⟩, hpc⟩
      exact ⟨h2, by omega, (isPrimeC_iff n h2).mp hpc⟩
    · rintro ⟨h2, h5, hp⟩
      exact ⟨⟨h2, by omega⟩, (isPrimeC_iff n h2).mpr hp⟩
  · exact hpw.imp Nat.ne_of_lt
  · rw [innerV1, dif_pos (by norm_num), if_neg (by norm_num)]
    rw [innerV1, dif_pos (by norm_num), if_pos (by norm_num)]
    rw [innerV1, dif_pos (by norm_num), if_pos (by norm_num)]
    rw [innerV1, dif_neg (by norm_num)]
    rfl

/-- Witness for C2 (amended) at a concrete input: a raw sample of `100` into
the startup state moves the mean to 20, the change exceeds the threshold, and
the V1 producer's stored `sma` then equals the mean of its history. -/
theorem c2_witness :
    (feedV1 initV1 100).sma = (((feedV1 initV1 100).history.sum : ℚ)) / 5 := by
  have hc : |newSMAof initV1 100 - initV1.sma| > 5 := by
    norm_num [newSMAof, initV1]
  exact (c2_average_consistency_amended initV2 initV1 0 100).2.2 hc
